import Mathlib

/-!
Verification of the modbus-core repository (a MODBUS stream framer and coil
bit-pack codec) against its natural-language specification.

Shallow embedding notes.

* Byte streams are `List Nat` (each element standing for one `u8`; all
  concrete inputs use values below 256).  Machine-word overflow never occurs
  in the modelled arithmetic: `u16` length fields are at most 65535 and the
  only additions are `+ 6` / `+ 7` on them, well below `usize` range, so
  plain `Nat` is an exact model.
* Rust `Result<T, ModbusError>` becomes `Except ModbusError T`.
* The repository contains TWO definitions of the stream-transport variant
  `TcpModbus`.  `src/protocols/mod.rs` declares the module INLINE
  (`mod tcp_modbus { ... }`), which is the code the crate actually compiles;
  the separate file `src/protocols/tcp_modbus.rs` is not reachable from the
  module tree (there is no `mod tcp_modbus;` item) and is therefore shadowed
  dead code.  The two disagree.  Namespace `TcpModbus` below embeds the
  compiled inline version; namespace `TcpModbusSplit` embeds the shadowed
  file version (which is the one the crate's own tests and doc comments,
  and the specification, describe).
* `RecvBuffer` owns a fixed 260-byte array of which only the first
  `size_used` bytes are ever read (`buffer()` returns that prefix, and
  `add_data` writes only at `size_used..`), so the state is modelled as the
  used prefix `raw : List Nat` plus the `contains_complete` flag; appending
  is list append, `trim_to` is `take`, `clear_buffer` is `[]`.
-/

/-- `ModbusError` from src/lib.rs. -/
inductive ModbusError : Type where
  | BadFuncCode : ModbusError
  | BadErrorCheck : ModbusError
  | BadLength : ModbusError
  | NotEnoughData : ModbusError
deriving DecidableEq, Repr

/-- `Coil` from src/lib.rs. -/
inductive Coil : Type where
  | On : Coil
  | Off : Coil
deriving DecidableEq, Repr

/-- `u16::from_be_bytes([hi, lo])`: big-endian recombination of two bytes. -/
def u16_from_be_bytes (hi lo : Nat) : Nat := 256 * hi + lo

/-- `TcpModbusHeader`: 2-byte transaction id, 2-byte protocol id, 2-byte
declared length, 1-byte unit id (both copies of the source declare the same
fields). -/
structure TcpModbusHeader : Type where
  transaction_id : Nat
  protocol_id : Nat
  length : Nat
  unit_id : Nat
deriving DecidableEq, Repr

/- The stream-transport variant as the crate compiles it: the inline module
`tcp_modbus` of src/protocols/mod.rs. -/
namespace TcpModbus

/-- `MBAP_LENGTH` (mod.rs): length of the MODBUS Application Protocol header. -/
def MBAP_LENGTH : Nat := 7

/-- `ADU_MAX_LENGTH` (mod.rs inline impl). -/
def ADU_MAX_LENGTH : Nat := 260

/-- `TcpModbus::protocol_id` (mod.rs): bytes 2 and 3, big-endian. -/
def protocol_id (data : List Nat) : Option Nat :=
  match data[2]?, data[3]? with
  | some hi, some lo => some (u16_from_be_bytes hi lo)
  | _, _ => none

/-- `TcpModbus::transaction_id` (mod.rs): bytes 0 and 1, big-endian. -/
def transaction_id (data : List Nat) : Option Nat :=
  match data[0]?, data[1]? with
  | some hi, some lo => some (u16_from_be_bytes hi lo)
  | _, _ => none

/-- `TcpModbus::length` (mod.rs): bytes 4 and 5, big-endian. -/
def length (data : List Nat) : Option Nat :=
  match data[4]?, data[5]? with
  | some hi, some lo => some (u16_from_be_bytes hi lo)
  | _, _ => none

/-- `TcpModbus::unit_id` (mod.rs): byte 6. -/
def unit_id (data : List Nat) : Option Nat := data[6]?

/-- `TcpModbus::adu_length` (mod.rs lines 82-87): the declared-length value
plus `MBAP_LENGTH` (7).  Note: no maximum-length check in this copy. -/
def adu_length (data : List Nat) : Except ModbusError Nat :=
  match length data with
  | none => .error ModbusError.NotEnoughData
  | some v => .ok (v + MBAP_LENGTH)

/-- `TcpModbus::adu_header` (mod.rs): each field read with
`.ok_or(NotEnoughData)?`. -/
def adu_header (data : List Nat) : Except ModbusError TcpModbusHeader :=
  match transaction_id data, protocol_id data, length data, unit_id data with
  | some t, some p, some l, some u =>
      .ok { transaction_id := t, protocol_id := p, length := l, unit_id := u }
  | _, _, _, _ => .error ModbusError.NotEnoughData

/-- `TcpModbus::adu_check` (mod.rs lines 102-112): propagates `adu_length`
errors, then demands `data.len() > length` (strict). -/
def adu_check (data : List Nat) : Except ModbusError Unit :=
  match adu_length data with
  | .error e => .error e
  | .ok l => if data.length > l then .ok () else .error ModbusError.NotEnoughData

/-- `TcpModbus::pdu_body` (mod.rs lines 114-120): check, then slice from
offset `MBAP_LENGTH`. -/
def pdu_body (data : List Nat) : Except ModbusError (List Nat) :=
  match adu_check data with
  | .error e => .error e
  | .ok _ => .ok (data.drop MBAP_LENGTH)

end TcpModbus

/- The stream-transport variant as written in src/protocols/tcp_modbus.rs.
This file is shadowed by the inline module above and not compiled, but it is
the copy the crate's tests, doc comments and the specification describe. -/
namespace TcpModbusSplit

/-- `MBAP_LENGTH` (tcp_modbus.rs). -/
def MBAP_LENGTH : Nat := 7

/-- `EXCLUDED_LENGTH` (tcp_modbus.rs): ADU bytes not counted by the length
field. -/
def EXCLUDED_LENGTH : Nat := 6

/-- `ADU_MAX_LENGTH` (tcp_modbus.rs). -/
def ADU_MAX_LENGTH : Nat := 260

/-- `TcpModbus::protocol_id` (tcp_modbus.rs). -/
def protocol_id (data : List Nat) : Option Nat :=
  match data[2]?, data[3]? with
  | some hi, some lo => some (u16_from_be_bytes hi lo)
  | _, _ => none

/-- `TcpModbus::transaction_id` (tcp_modbus.rs). -/
def transaction_id (data : List Nat) : Option Nat :=
  match data[0]?, data[1]? with
  | some hi, some lo => some (u16_from_be_bytes hi lo)
  | _, _ => none

/-- `TcpModbus::length` (tcp_modbus.rs). -/
def length (data : List Nat) : Option Nat :=
  match data[4]?, data[5]? with
  | some hi, some lo => some (u16_from_be_bytes hi lo)
  | _, _ => none

/-- `TcpModbus::unit_id` (tcp_modbus.rs). -/
def unit_id (data : List Nat) : Option Nat := data[6]?

/-- `TcpModbus::adu_length` (tcp_modbus.rs lines 116-129): declared length
plus `EXCLUDED_LENGTH` (6), rejected with `BadLength` above
`ADU_MAX_LENGTH`. -/
def adu_length (data : List Nat) : Except ModbusError Nat :=
  match length data with
  | none => .error ModbusError.NotEnoughData
  | some v =>
      let adu_length := v + EXCLUDED_LENGTH
      if adu_length ≤ ADU_MAX_LENGTH then .ok adu_length
      else .error ModbusError.BadLength

/-- `TcpModbus::adu_header` (tcp_modbus.rs). -/
def adu_header (data : List Nat) : Except ModbusError TcpModbusHeader :=
  match transaction_id data, protocol_id data, length data, unit_id data with
  | some t, some p, some l, some u =>
      .ok { transaction_id := t, protocol_id := p, length := l, unit_id := u }
  | _, _, _, _ => .error ModbusError.NotEnoughData

/-- `TcpModbus::adu_check` (tcp_modbus.rs lines 144-154): propagates
`adu_length` errors, then demands `data.len() >= length`. -/
def adu_check (data : List Nat) : Except ModbusError Unit :=
  match adu_length data with
  | .error e => .error e
  | .ok l => if data.length ≥ l then .ok () else .error ModbusError.NotEnoughData

/-- `TcpModbus::pdu_body` (tcp_modbus.rs lines 156-162). -/
def pdu_body (data : List Nat) : Except ModbusError (List Nat) :=
  match adu_check data with
  | .error e => .error e
  | .ok _ => .ok (data.drop MBAP_LENGTH)

end TcpModbusSplit

/-- The `ModbusProtocol` trait of src/protocols/mod.rs, as a record of the
four pure operations plus the maximum-length constant (the associated
`Header` type becomes a type parameter). -/
structure ModbusProtocol (Header : Type) : Type where
  ADU_MAX_LENGTH : Nat
  adu_length : List Nat → Except ModbusError Nat
  adu_header : List Nat → Except ModbusError Header
  adu_check : List Nat → Except ModbusError Unit
  pdu_body : List Nat → Except ModbusError (List Nat)

/-- The compiled stream-transport contract (inline module of mod.rs). -/
def TcpModbusP : ModbusProtocol TcpModbusHeader where
  ADU_MAX_LENGTH := TcpModbus.ADU_MAX_LENGTH
  adu_length := TcpModbus.adu_length
  adu_header := TcpModbus.adu_header
  adu_check := TcpModbus.adu_check
  pdu_body := TcpModbus.pdu_body

/-- The shadowed-file stream-transport contract (tcp_modbus.rs). -/
def TcpModbusSplitP : ModbusProtocol TcpModbusHeader where
  ADU_MAX_LENGTH := TcpModbusSplit.ADU_MAX_LENGTH
  adu_length := TcpModbusSplit.adu_length
  adu_header := TcpModbusSplit.adu_header
  adu_check := TcpModbusSplit.adu_check
  pdu_body := TcpModbusSplit.pdu_body

/-- `const_max` from src/recv_buffer.rs: `[a, b][(a < b) as usize]`. -/
def const_max (a b : Nat) : Nat := if a < b then b else a

/-- `BUFFER_LEN` from src/recv_buffer.rs: the larger of the two protocols'
maximum ADU lengths (260 vs 256). -/
def BUFFER_LEN : Nat := const_max TcpModbus.ADU_MAX_LENGTH 256

/-- `Packet` from src/recv_buffer.rs (field order as in the source). -/
structure Packet (Header : Type) : Type where
  pdu : List Nat
  header : Header
deriving DecidableEq, Repr

/-- `RecvBuffer` state: the used prefix of `raw_buffer` plus
`contains_complete` (see the embedding notes at the top of the file). -/
structure RecvBuffer : Type where
  raw : List Nat
  complete : Bool
deriving DecidableEq, Repr

namespace RecvBuffer

/-- `RecvBuffer::new`. -/
def new : RecvBuffer := { raw := [], complete := false }

end RecvBuffer

/-- The reset at the top of `process`: if `contains_complete` is set, the
buffer is cleared and the flag dropped; each call starts fresh unless a
message is still mid-assembly. -/
def startState (st : RecvBuffer) : RecvBuffer :=
  if st.complete then RecvBuffer.new else st

/-- The append step of `process`: `min(space_left, data.len())` bytes of
`data` are copied after the used prefix (`space_left` is
`BUFFER_LEN - size_used`). -/
def appended (st : RecvBuffer) (data : List Nat) : List Nat :=
  st.raw ++ data.take (min (BUFFER_LEN - st.raw.length) data.length)

/-- `RecvBuffer::process` (src/recv_buffer.rs lines 66-120), generic over the
protocol contract `P`.  Returns the Rust result together with the state the
call leaves behind.  The `Err(NotEnoughData)` arm of the length query keeps
the appended buffer; any other length-query error clears it; once a complete
ADU is found the flag is set and the buffer trimmed to `adu_length` before
`adu_header`/`pdu_body` run (their errors propagate through `?` with that
state already in place); the leftover is the suffix of the caller's `data`
from `adu_length - original_buffer_size`. -/
def process {H : Type} (P : ModbusProtocol H) (st : RecvBuffer) (data : List Nat) :
    Except ModbusError (Packet H × List Nat) × RecvBuffer :=
  let st1 := startState st
  let original_buffer_size := st1.raw.length
  let buf := appended st1 data
  match P.adu_length buf with
  | .error ModbusError.NotEnoughData =>
      (.error ModbusError.NotEnoughData, { st1 with raw := buf })
  | .error e => (.error e, { st1 with raw := [] })
  | .ok adu_length =>
      if buf.length < adu_length then
        (.error ModbusError.NotEnoughData, { st1 with raw := buf })
      else
        let remaining_data_index := adu_length - original_buffer_size
        let st2 : RecvBuffer := { raw := buf.take adu_length, complete := true }
        match P.adu_header st2.raw with
        | .error e => (.error e, st2)
        | .ok header =>
            match P.pdu_body st2.raw with
            | .error e => (.error e, st2)
            | .ok pdu =>
                (.ok ({ pdu := pdu, header := header }, data.drop remaining_data_index), st2)

/-- Repeated `process` calls, one chunk after another, collecting each call's
result (the harness the repository's chunked tests use). -/
def runChunks {H : Type} (P : ModbusProtocol H) :
    RecvBuffer → List (List Nat) → List (Except ModbusError (Packet H × List Nat))
  | _, [] => []
  | st, d :: ds =>
      let r := process P st d
      r.fst :: runChunks P r.snd ds

/- The bit-pack codec from src/bit_pack.rs.  Bytes are `Nat` values; the
Rust `u8` operations translate exactly: `1 << bit_index` is `1 <<< bit_index`
(the shift is below 8, so no `u8` overflow), and the `u8` complement
`!bit_flag` is `255 ^^^ bit_flag`.  Rust indexing panics out of bounds; the
model reads with `getD _ 0` and writes with `List.set` (which drops
out-of-range writes) — the theorems only use in-range indices, as the
source's preconditions demand. -/

/-- `COILS_PER_BYTE` from src/bit_pack.rs. -/
def COILS_PER_BYTE : Nat := 8

/-- `bytes_needed` from src/bit_pack.rs:
`(coils + COILS_PER_BYTE - 1) / COILS_PER_BYTE`. -/
def bytes_needed (coils : Nat) : Nat := (coils + COILS_PER_BYTE - 1) / COILS_PER_BYTE

/-- One iteration of the `pack_coils` loop: coil number `coil_index` lands in
bit `coil_index % 8` (LSB-first) of byte `coil_index / 8`; `On` ors the flag
in, `Off` ands with its complement. -/
def packStep (bytes : List Nat) (coil_index : Nat) (coil : Coil) : List Nat :=
  let byte_index := coil_index / COILS_PER_BYTE
  let bit_index := coil_index % COILS_PER_BYTE
  let bit_flag : Nat := 1 <<< bit_index
  match coil with
  | Coil.On => bytes.set byte_index (bytes.getD byte_index 0 ||| bit_flag)
  | Coil.Off => bytes.set byte_index (bytes.getD byte_index 0 &&& (255 ^^^ bit_flag))

/-- The `for (coil_index, coil) in coils.iter().enumerate()` loop of
`pack_coils`, with the running index made explicit. -/
def packLoop (bytes : List Nat) (coil_index : Nat) : List Coil → List Nat
  | [] => bytes
  | c :: rest => packLoop (packStep bytes coil_index c) (coil_index + 1) rest

/-- `pack_coils` from src/bit_pack.rs lines 19-44: reborrow the first
`bytes_needed(coils.len())` bytes, zero them, then run the packing loop
(bytes past the needed range are untouched). -/
def pack_coils (coils : List Coil) (bytes : List Nat) : List Nat :=
  let needed := bytes_needed coils.length
  packLoop (List.replicate needed 0 ++ bytes.drop needed) 0 coils

/-- `unpack_coils` from src/bit_pack.rs lines 56-73: the output coil count
drives the loop; coil `i` is `Off` exactly when bit `i % 8` of byte `i / 8`
is clear. -/
def unpack_coils (bytes : List Nat) (num_coils : Nat) : List Coil :=
  (List.range num_coils).map fun coil_index =>
    let byte_index := coil_index / COILS_PER_BYTE
    let bit_index := coil_index % COILS_PER_BYTE
    let bit_flag : Nat := 1 <<< bit_index
    if bytes.getD byte_index 0 &&& bit_flag = 0 then Coil.Off else Coil.On

-- Sanity evaluations (concrete traces of the embedding).
example : TcpModbus.adu_length [0, 1, 0, 0, 0, 3] = .ok 10 := rfl
example : TcpModbusSplit.adu_length [0, 1, 0, 0, 0, 3] = .ok 9 := rfl
example : TcpModbusSplit.adu_length [0, 0, 0, 0, 0, 255] = .error ModbusError.BadLength := rfl
example :
    (process TcpModbusSplitP RecvBuffer.new [0, 1, 0, 0, 0, 3, 9, 170, 187]).fst =
      .ok ({ pdu := [170, 187],
             header := { transaction_id := 1, protocol_id := 0, length := 3, unit_id := 9 } },
           []) := rfl
example :
    (process TcpModbusP RecvBuffer.new [0, 1, 0, 0, 0, 3, 9, 170, 187, 204]).fst =
      .error ModbusError.NotEnoughData := rfl
-- bit_pack sanity, mirroring the repository's own test values:
example : bytes_needed 9 = 2 := rfl
example :
    pack_coils [Coil.On, Coil.On, Coil.Off, Coil.Off, Coil.Off, Coil.On, Coil.Off, Coil.On,
      Coil.Off, Coil.Off, Coil.On] [0xAA, 0xAA, 0xAA] = [0b10100011, 0b00000100, 0xAA] := rfl
example :
    unpack_coils [0b10011100, 0b00001001] 12 =
      [Coil.Off, Coil.Off, Coil.On, Coil.On, Coil.On, Coil.Off, Coil.Off, Coil.On,
       Coil.On, Coil.Off, Coil.Off, Coil.On] := rfl
example : pack_coils [Coil.On] [0xAA] = [1] := rfl

/-! ## Claim theorems -/

/-- Claim C1 (code_bug evidence).  The claim says the stream-transport
`adu_length` returns `Ok(L + 6)` when `L + 6 <= 260` and fails `BadLength`
otherwise.  The compiled copy (the inline module of protocols/mod.rs)
instead returns `Ok(L + 7)` and has no maximum check: on the window
`[0,0,0,0,0,255]` (declared length 255, so `L + 6 = 261 > 260`) it answers
`Ok 262` instead of `BadLength`, and on `[0,1,0,0,0,3]` it answers `Ok 10`
instead of `Ok 9`.  The shadowed file copy `TcpModbusSplit` behaves exactly
as the claim states at both windows. -/
theorem C1_adu_length_eval :
    TcpModbus.adu_length [0, 0, 0, 0, 0, 255] = .ok 262 ∧
    TcpModbus.adu_length [0, 1, 0, 0, 0, 3] = .ok 10 ∧
    TcpModbusSplit.adu_length [0, 0, 0, 0, 0, 255] = .error ModbusError.BadLength ∧
    TcpModbusSplit.adu_length [0, 1, 0, 0, 0, 3] = .ok 9 :=
  ⟨rfl, rfl, rfl, rfl⟩

/-- Claim C2 (code_bug evidence).  Feeding the 9-byte ADU
`00 01 00 00 00 03 09 AA BB` one byte at a time: with the compiled inline
contract every one of the nine calls returns `NotEnoughData` (its
`adu_length` reports 10 for this message, which never arrives), so the 9th
call does not produce the packet the claim describes.  With the shadowed
file contract the run behaves exactly as the claim states: eight
`NotEnoughData` results, then the packet with header `{1, 0, 3, 9}`,
payload `[0xAA, 0xBB]` and empty leftover. -/
theorem C2_byte_by_byte_eval :
    runChunks TcpModbusP RecvBuffer.new
        [[0], [1], [0], [0], [0], [3], [9], [170], [187]] =
      List.replicate 9 (.error ModbusError.NotEnoughData) ∧
    runChunks TcpModbusSplitP RecvBuffer.new
        [[0], [1], [0], [0], [0], [3], [9], [170], [187]] =
      List.replicate 8 (.error ModbusError.NotEnoughData) ++
        [.ok ({ pdu := [170, 187],
                header := { transaction_id := 1, protocol_id := 0, length := 3, unit_id := 9 } },
              [])] :=
  ⟨rfl, rfl⟩

/-- Claim C3 (code_bug evidence).  The claim says a window that is exactly
one complete ADU passes `adu_check` and `pdu_body` returns the bytes from
offset 7.  For the compiled inline contract, the 10-byte window
`[0,1,0,0,0,3,9,170,187,204]` has computed ADU length 10 (= its own length),
yet `adu_check` demands strictly more data and fails `NotEnoughData`, and
`pdu_body` fails with it.  The shadowed file contract behaves as claimed on
its exact-length window `[0,1,0,0,0,3,9,170,187]` (computed length 9). -/
theorem C3_adu_check_eval :
    TcpModbus.adu_length [0, 1, 0, 0, 0, 3, 9, 170, 187, 204] = .ok 10 ∧
    ([0, 1, 0, 0, 0, 3, 9, 170, 187, 204] : List Nat).length = 10 ∧
    TcpModbus.adu_check [0, 1, 0, 0, 0, 3, 9, 170, 187, 204] =
      .error ModbusError.NotEnoughData ∧
    TcpModbus.pdu_body [0, 1, 0, 0, 0, 3, 9, 170, 187, 204] =
      .error ModbusError.NotEnoughData ∧
    TcpModbusSplit.adu_length [0, 1, 0, 0, 0, 3, 9, 170, 187] = .ok 9 ∧
    ([0, 1, 0, 0, 0, 3, 9, 170, 187] : List Nat).length = 9 ∧
    TcpModbusSplit.adu_check [0, 1, 0, 0, 0, 3, 9, 170, 187] = .ok () ∧
    TcpModbusSplit.pdu_body [0, 1, 0, 0, 0, 3, 9, 170, 187] = .ok [170, 187] :=
  ⟨rfl, rfl, rfl, rfl, rfl, rfl, rfl, rfl⟩

/-- Claim C4 (code_bug evidence).  The claim says one `process` call on a
concatenation of complete valid ADUs yields the first packet plus the rest
as leftover, and repeated calls peel one ADU each.  With the compiled inline
contract the call on two concatenated 9-byte ADUs fails `NotEnoughData`
(no call can ever produce a packet, since after trimming to `adu_length`
its `adu_check` wants strictly more than `adu_length` bytes).  With the
shadowed file contract the two calls behave exactly as claimed: first call
returns the first packet and leftover = the second ADU; the second call
consumes it and returns empty leftover. -/
theorem C4_concatenated_eval :
    (process TcpModbusP RecvBuffer.new
        ([0, 1, 0, 0, 0, 3, 9, 170, 187] ++ [0, 1, 0, 0, 0, 3, 9, 170, 187])).fst =
      .error ModbusError.NotEnoughData ∧
    (process TcpModbusSplitP RecvBuffer.new
        ([0, 1, 0, 0, 0, 3, 9, 170, 187] ++ [0, 1, 0, 0, 0, 3, 9, 170, 187])).fst =
      .ok ({ pdu := [170, 187],
             header := { transaction_id := 1, protocol_id := 0, length := 3, unit_id := 9 } },
           [0, 1, 0, 0, 0, 3, 9, 170, 187]) ∧
    (process TcpModbusSplitP
        (process TcpModbusSplitP RecvBuffer.new
          ([0, 1, 0, 0, 0, 3, 9, 170, 187] ++ [0, 1, 0, 0, 0, 3, 9, 170, 187])).snd
        [0, 1, 0, 0, 0, 3, 9, 170, 187]).fst =
      .ok ({ pdu := [170, 187],
             header := { transaction_id := 1, protocol_id := 0, length := 3, unit_id := 9 } },
           []) :=
  ⟨rfl, rfl, rfl⟩

/-- Claim C5 (code_bug evidence).  The claim says bytes are always retained
across a `NotEnoughData` return and the next call appends to them.  Both
copies of the stream contract break this, because `process` sets the
complete-flag and trims the buffer *before* `adu_header`/`pdu_body` run, and
a `NotEnoughData` escaping from those leaves the flag set, so the next call
starts by clearing the buffer.  Compiled inline contract: the 10-byte window
`[0,1,0,0,0,3,9,170,187,204]` returns `NotEnoughData` with 10 bytes
buffered, and a following 1-byte call finds the buffer holding only that
byte.  Shadowed file contract: the degenerate 6-byte ADU `[0,0,0,0,0,0]`
(declared length 0, so no unit-id byte for `adu_header`) behaves the same
way. -/
theorem C5_retention_eval :
    (process TcpModbusP RecvBuffer.new [0, 1, 0, 0, 0, 3, 9, 170, 187, 204]).fst =
      .error ModbusError.NotEnoughData ∧
    (process TcpModbusP RecvBuffer.new [0, 1, 0, 0, 0, 3, 9, 170, 187, 204]).snd.raw =
      [0, 1, 0, 0, 0, 3, 9, 170, 187, 204] ∧
    (process TcpModbusP
        (process TcpModbusP RecvBuffer.new [0, 1, 0, 0, 0, 3, 9, 170, 187, 204]).snd
        [7]).snd.raw = [7] ∧
    (process TcpModbusSplitP RecvBuffer.new [0, 0, 0, 0, 0, 0]).fst =
      .error ModbusError.NotEnoughData ∧
    (process TcpModbusSplitP RecvBuffer.new [0, 0, 0, 0, 0, 0]).snd.raw =
      [0, 0, 0, 0, 0, 0] ∧
    (process TcpModbusSplitP
        (process TcpModbusSplitP RecvBuffer.new [0, 0, 0, 0, 0, 0]).snd [1]).snd.raw =
      [1] :=
  ⟨rfl, rfl, rfl, rfl, rfl, rfl⟩

/-- A protocol contract the trait documentation explicitly contemplates: its
`adu_header` reports an unrecognized function code (`BadFuncCode`) even
though one byte suffices to determine the ADU length.  Used to probe the
framer's behaviour on non-`NotEnoughData` errors arising after the length
query. -/
def BadHeaderProto : ModbusProtocol Unit where
  ADU_MAX_LENGTH := 260
  adu_length := fun _ => .ok 1
  adu_header := fun _ => .error ModbusError.BadFuncCode
  adu_check := fun _ => .error ModbusError.BadFuncCode
  pdu_body := fun _ => .error ModbusError.BadFuncCode

theorem startState_complete (st : RecvBuffer) : (startState st).complete = false := by
  unfold startState
  split
  · rfl
  · rename_i h
    simpa using h

/-- Every `process` call ends in one of three shapes: a `NotEnoughData`
result (buffer retained), the empty fresh state (length-query error), or a
state with the complete-flag set (an ADU was found, whether or not header
and payload extraction then succeeded). -/
theorem process_cases {H : Type} (P : ModbusProtocol H) (st : RecvBuffer) (data : List Nat) :
    (process P st data).fst = .error ModbusError.NotEnoughData ∨
    (process P st data).snd = RecvBuffer.new ∨
    (process P st data).snd.complete = true := by
  unfold process
  cases hl : P.adu_length (appended (startState st) data) with
  | error e =>
      cases e <;>
        simp [hl, RecvBuffer.new, startState_complete st]
  | ok n =>
      simp only [hl]
      split
      · simp
      · cases hh : P.adu_header ((appended (startState st) data).take n) with
        | error e => simp [hh]
        | ok hd =>
            cases hp : P.pdu_body ((appended (startState st) data).take n) with
            | error e => simp [hh, hp]
            | ok pdu => simp [hh, hp]

/-- A call on a state whose complete-flag is set first clears the buffer, so
it behaves exactly like a call on a fresh framer. -/
theorem process_of_complete {H : Type} (P : ModbusProtocol H) (st : RecvBuffer)
    (hc : st.complete = true) (d : List Nat) :
    process P st d = process P RecvBuffer.new d := by
  unfold process
  rw [show startState st = startState RecvBuffer.new by
    simp [startState, hc, RecvBuffer.new]]

/-- Claim C6, counterexample.  The claim says EVERY error other than
`NotEnoughData`, for EVERY protocol contract, leaves the buffer empty
(used-length 0) when the call returns.  With a contract whose `adu_header`
reports `BadFuncCode` (sanctioned by the trait documentation), a 1-byte call
returns `BadFuncCode` while the byte is still buffered: the clearing only
happens at the start of the next call. -/
theorem C6_counterexample :
    (process BadHeaderProto RecvBuffer.new [0]).fst = .error ModbusError.BadFuncCode ∧
    (process BadHeaderProto RecvBuffer.new [0]).snd.raw = [0] ∧
    (process BadHeaderProto RecvBuffer.new [0]).snd.raw ≠ [] :=
  ⟨rfl, rfl, by decide⟩

/-- Claim C6, amended.  For every protocol contract and Framer state, a
`process` call returning an error other than `NotEnoughData` leaves either
an empty buffer (length-query errors clear it before returning) or the
complete-flag set (header/payload-extraction errors keep the trimmed ADU
buffered); in both cases every subsequent call behaves exactly as on a fresh
empty framer, so a fresh complete valid ADU decodes unaffected by the
discarded bytes. -/
theorem C6_discard_semantics {H : Type} (P : ModbusProtocol H) (st : RecvBuffer)
    (data : List Nat) (e : ModbusError)
    (herr : (process P st data).fst = .error e) (hne : e ≠ ModbusError.NotEnoughData) :
    ((process P st data).snd.raw = [] ∨ (process P st data).snd.complete = true) ∧
    (∀ d, process P (process P st data).snd d = process P RecvBuffer.new d) := by
  rcases process_cases P st data with h | h | h
  · rw [herr] at h
    exact absurd (by injection h) hne
  · refine ⟨Or.inl (by rw [h]; rfl), fun d => by rw [h]⟩
  · exact ⟨Or.inr h, fun d => process_of_complete P _ h d⟩

/-- Claim C6, witness for the amended theorem at a concrete contract, state
and chunk. -/
theorem C6_witness :
    (process BadHeaderProto RecvBuffer.new [0]).snd.raw = [] ∨
    (process BadHeaderProto RecvBuffer.new [0]).snd.complete = true :=
  (C6_discard_semantics BadHeaderProto RecvBuffer.new [0] ModbusError.BadFuncCode rfl
    (by decide)).1

/-- Claim C7.  The invariant used-length ≤ buffer capacity holds for the
fresh framer and is preserved by every `process` call, for every protocol
contract and every input chunk (the append step takes only
`min(space_left, data.len())` bytes). -/
theorem C7_capacity_invariant {H : Type} (P : ModbusProtocol H) (st : RecvBuffer)
    (data : List Nat) (h : st.raw.length ≤ BUFFER_LEN) :
    RecvBuffer.new.raw.length ≤ BUFFER_LEN ∧
    (process P st data).snd.raw.length ≤ BUFFER_LEN := by
  have h1 : (startState st).raw.length ≤ BUFFER_LEN := by
    unfold startState
    split
    · simp [RecvBuffer.new]
    · exact h
  have h2 : (appended (startState st) data).length ≤ BUFFER_LEN := by
    simp only [appended, List.length_append, List.length_take]
    omega
  refine ⟨by simp [RecvBuffer.new], ?_⟩
  unfold process
  cases hl : P.adu_length (appended (startState st) data) with
  | error e =>
      cases e <;> (simp [hl]; try omega)
  | ok n =>
      simp only [hl]
      split
      · simpa using h2
      · cases hh : P.adu_header ((appended (startState st) data).take n) with
        | error e =>
            simp [hh, List.length_take]
            omega
        | ok hd =>
            cases hp : P.pdu_body ((appended (startState st) data).take n) with
            | error e =>
                simp [hh, hp, List.length_take]
                omega
            | ok pdu =>
                simp [hh, hp, List.length_take]
                omega

/-- Claim C7, witness at a concrete contract, state and oversized chunk. -/
theorem C7_witness :
    RecvBuffer.new.raw.length ≤ BUFFER_LEN ∧
    (process TcpModbusP RecvBuffer.new (List.replicate 300 0)).snd.raw.length ≤ BUFFER_LEN :=
  C7_capacity_invariant TcpModbusP RecvBuffer.new (List.replicate 300 0) (by decide)

theorem tcp_adu_length_append (l t : List Nat) (h : 6 ≤ l.length) :
    TcpModbus.adu_length (l ++ t) = TcpModbus.adu_length l := by
  unfold TcpModbus.adu_length TcpModbus.length
  rw [List.getElem?_append_left (show 4 < l.length by omega),
    List.getElem?_append_left (show 5 < l.length by omega)]

theorem tcp_adu_length_ok_bounds {l : List Nat} {n : Nat}
    (h : TcpModbus.adu_length l = .ok n) : 7 ≤ n ∧ 6 ≤ l.length := by
  unfold TcpModbus.adu_length TcpModbus.length at h
  cases h4 : l[4]? with
  | none => rw [h4] at h; cases h5 : l[5]? <;> rw [h5] at h <;> cases h
  | some hi =>
      cases h5 : l[5]? with
      | none => rw [h4, h5] at h; cases h
      | some lo =>
          rw [h4, h5] at h
          obtain ⟨hlt, -⟩ := List.getElem?_eq_some_iff.mp h5
          have hn : u16_from_be_bytes hi lo + TcpModbus.MBAP_LENGTH = n := by
            injection h
          unfold TcpModbus.MBAP_LENGTH at hn
          omega

theorem tcp_adu_length_err_len {l : List Nat} {e : ModbusError}
    (h : TcpModbus.adu_length l = .error e) : l.length < 6 := by
  by_contra hc
  push_neg at hc
  unfold TcpModbus.adu_length TcpModbus.length at h
  rw [List.getElem?_eq_getElem (show 4 < l.length by omega),
    List.getElem?_eq_getElem (show 5 < l.length by omega)] at h
  cases h

/-- The state invariant of `RecvBuffer` under the compiled stream contract:
while no complete message is flagged, the buffered bytes are still short of
one ADU (either too short even for the length field, or shorter than the ADU
length they declare).  This is the invariant the source comments on at
recv_buffer.rs lines 102-105. -/
def TcpInv (st : RecvBuffer) : Prop :=
  st.complete = false →
    st.raw.length < 6 ∨
    ∃ n, TcpModbus.adu_length st.raw = .ok n ∧ st.raw.length < n

/-- Claim C8.  For the compiled stream contract: the fresh framer satisfies
the buffer invariant, every `process` call preserves it, and from any
invariant-satisfying state, whenever a call finds a complete ADU (the length
query over the appended buffer answers `n` and at least `n` bytes are
buffered), the computed ADU length is at least the byte count buffered
before the call — so `adu_length - original_buffer_size` cannot underflow —
and the resulting index is at most the input chunk's length, so taking the
suffix of the caller's slice at it cannot panic. -/
theorem C8_leftover_bounds :
    TcpInv RecvBuffer.new ∧
    (∀ st data, TcpInv st → TcpInv (process TcpModbusP st data).snd) ∧
    (∀ st data n, TcpInv st →
      TcpModbus.adu_length (appended (startState st) data) = .ok n →
      n ≤ (appended (startState st) data).length →
      (startState st).raw.length ≤ n ∧
      n - (startState st).raw.length ≤ data.length) := by
  refine ⟨fun _ => Or.inl (by simp [RecvBuffer.new]), ?_, ?_⟩
  · intro st data hInv
    unfold process
    cases hl : TcpModbusP.adu_length (appended (startState st) data) with
    | error e =>
        cases e
        case NotEnoughData =>
          simp only [hl]
          intro _
          exact Or.inl (tcp_adu_length_err_len hl)
        all_goals simp only [hl]
        all_goals exact fun _ => Or.inl (by simp)
    | ok n =>
        simp only [hl]
        split
        · rename_i hlt
          intro _
          exact Or.inr ⟨n, hl, hlt⟩
        · cases hh : TcpModbusP.adu_header ((appended (startState st) data).take n) with
          | error e => intro hfc; cases hfc
          | ok hd =>
              cases hp : TcpModbusP.pdu_body ((appended (startState st) data).take n) with
              | error e => intro hfc; cases hfc
              | ok pdu => intro hfc; cases hfc
  · intro st data n hInv hok hfull
    have hb : (appended (startState st) data).length ≤
        (startState st).raw.length + data.length := by
      simp only [appended, List.length_append, List.length_take]
      omega
    have h1 : (startState st).raw.length ≤ n := by
      cases hc : st.complete with
      | true =>
          rw [show startState st = RecvBuffer.new by simp [startState, hc]]
          simp [RecvBuffer.new]
      | false =>
          have hss : startState st = st := by simp [startState, hc]
          rw [hss] at hok ⊢
          rcases hInv hc with hlt | ⟨m, hm, hmlt⟩
          · have := (tcp_adu_length_ok_bounds hok).1
            omega
          · have h6 : 6 ≤ st.raw.length := (tcp_adu_length_ok_bounds hm).2
            rw [show appended st data =
                st.raw ++ data.take (min (BUFFER_LEN - st.raw.length) data.length) from rfl,
              tcp_adu_length_append _ _ h6, hm] at hok
            have : m = n := by injection hok
            omega
    exact ⟨h1, by omega⟩

/-- Claim C8, witness: the bounds at a concrete one-shot call completing a
10-byte ADU on the fresh framer. -/
theorem C8_witness :
    (startState RecvBuffer.new).raw.length ≤ 10 ∧
    10 - (startState RecvBuffer.new).raw.length ≤
      ([0, 1, 0, 0, 0, 3, 9, 170, 187, 204] : List Nat).length :=
  C8_leftover_bounds.2.2 RecvBuffer.new [0, 1, 0, 0, 0, 3, 9, 170, 187, 204] 10
    (fun _ => Or.inl (by simp [RecvBuffer.new])) rfl (by decide)


theorem getElem?_drop_add (l : List Nat) (k i : Nat) : (l.drop k)[i]? = l[k + i]? := by
  induction k generalizing l with
  | zero => simp
  | succ k ih =>
      cases l with
      | nil => simp
      | cons a t =>
          rw [List.drop_succ_cons, ih t,
            show k + 1 + i = (k + i) + 1 by omega, List.getElem?_cons_succ]

theorem and_two_pow_eq_zero_iff (x b : Nat) :
    x &&& 2 ^ b = 0 ↔ x.testBit b = false := by
  constructor
  · intro h
    have h2 := congrArg (fun y => Nat.testBit y b) h
    simpa [Nat.testBit_and, Nat.testBit_two_pow_self] using h2
  · intro h
    apply Nat.eq_of_testBit_eq
    intro i
    simp only [Nat.testBit_and, Nat.zero_testBit]
    by_cases hib : b = i
    · subst hib
      simp [h]
    · simp [Nat.testBit_two_pow_of_ne hib]

theorem testBit_255_of_lt {i : Nat} (h : i < 8) : Nat.testBit 255 i = true := by
  rw [show (255 : Nat) = 2 ^ 8 - 1 from rfl, Nat.testBit_two_pow_sub_one]
  simpa using h

theorem packStep_length (s : List Nat) (idx : Nat) (c : Coil) :
    (packStep s idx c).length = s.length := by
  unfold packStep
  cases c <;> simp

theorem packStep_getD_testBit_eq (s : List Nat) (idx : Nat) (c : Coil) (j b : Nat)
    (hb : b < 8) (hpj : 8 * j + b = idx) (hj : j < s.length) :
    Nat.testBit ((packStep s idx c).getD j 0) b = (c == Coil.On) := by
  have hdiv : idx / COILS_PER_BYTE = j := by unfold COILS_PER_BYTE; omega
  have hmod : idx % COILS_PER_BYTE = b := by unfold COILS_PER_BYTE; omega
  cases c with
  | On =>
      simp only [packStep, hdiv, hmod, List.getD_eq_getElem?_getD,
        List.getElem?_set_self hj, Option.getD_some, Nat.one_shiftLeft]
      simp [Nat.testBit_or, Nat.testBit_two_pow_self]
  | Off =>
      simp only [packStep, hdiv, hmod, List.getD_eq_getElem?_getD,
        List.getElem?_set_self hj, Option.getD_some, Nat.one_shiftLeft]
      simp [Nat.testBit_and, Nat.testBit_xor, Nat.testBit_two_pow_self,
        testBit_255_of_lt hb]

theorem packStep_getD_testBit_ne (s : List Nat) (idx : Nat) (c : Coil) (j b : Nat)
    (hb : b < 8) (hne : 8 * j + b ≠ idx) :
    Nat.testBit ((packStep s idx c).getD j 0) b = Nat.testBit (s.getD j 0) b := by
  by_cases hj : idx / COILS_PER_BYTE = j
  · have hbit : idx % COILS_PER_BYTE ≠ b := by
      unfold COILS_PER_BYTE at hj ⊢
      omega
    by_cases hjl : j < s.length
    · cases c with
      | On =>
          simp only [packStep, hj, List.getD_eq_getElem?_getD,
            List.getElem?_set_self hjl, Option.getD_some, Nat.one_shiftLeft]
          simp [Nat.testBit_or, Nat.testBit_two_pow_of_ne hbit]
      | Off =>
          simp only [packStep, hj, List.getD_eq_getElem?_getD,
            List.getElem?_set_self hjl, Option.getD_some, Nat.one_shiftLeft]
          simp [Nat.testBit_and, Nat.testBit_xor, Nat.testBit_two_pow_of_ne hbit,
            testBit_255_of_lt hb]
    · have hset : ∀ v, s.set (idx / COILS_PER_BYTE) v = s := fun v =>
        List.set_eq_of_length_le (by rw [hj]; omega)
      cases c <;> simp only [packStep] <;> rw [hset]
  · cases c <;> simp only [packStep] <;>
      simp [List.getD_eq_getElem?_getD, List.getElem?_set_ne hj]

theorem packLoop_length (s : List Nat) (idx : Nat) (cs : List Coil) :
    (packLoop s idx cs).length = s.length := by
  induction cs generalizing s idx with
  | nil => rfl
  | cons c rest ih => rw [packLoop, ih, packStep_length]

/-- Bit-level characterization of the packing loop: starting the loop at
coil index `idx`, bit `b` of byte `j` of the result is the coil assigned to
absolute position `8 * j + b` if the loop writes that position, and the
starting buffer's bit otherwise.  (`hbound` keeps every write in range, as
the source's precondition does.) -/
theorem packLoop_testBit (cs : List Coil) (s : List Nat) (idx j b : Nat)
    (hb : b < 8) (hbound : idx + cs.length ≤ 8 * s.length) :
    Nat.testBit ((packLoop s idx cs).getD j 0) b =
      if idx ≤ 8 * j + b ∧ 8 * j + b < idx + cs.length then
        (cs.getD (8 * j + b - idx) Coil.Off == Coil.On)
      else Nat.testBit (s.getD j 0) b := by
  induction cs generalizing s idx with
  | nil =>
      rw [packLoop, if_neg (by simp only [List.length_nil]; omega)]
  | cons c rest ih =>
      simp only [List.length_cons] at hbound
      have hbound2 : (idx + 1) + rest.length ≤ 8 * (packStep s idx c).length := by
        rw [packStep_length]
        omega
      rw [packLoop, ih (packStep s idx c) (idx + 1) hbound2]
      by_cases hp : 8 * j + b = idx
      · rw [if_neg (by omega), if_pos (by simp only [List.length_cons]; omega), hp,
          Nat.sub_self, List.getD_cons_zero]
        exact packStep_getD_testBit_eq s idx c j b hb hp (by omega)
      · by_cases hin : idx ≤ 8 * j + b ∧ 8 * j + b < idx + rest.length + 1
        · rw [if_pos (by omega), if_pos (by simp only [List.length_cons]; omega),
            show 8 * j + b - idx = (8 * j + b - (idx + 1)) + 1 by omega,
            List.getD_cons_succ]
        · rw [if_neg (by omega), if_neg (by simp only [List.length_cons]; omega)]
          exact packStep_getD_testBit_ne s idx c j b hb hp

/-- Bytes wholly past the packed coil range are never written by the packing
loop. -/
theorem packLoop_getD_high (cs : List Coil) (s : List Nat) (idx j : Nat)
    (h : idx + cs.length ≤ 8 * j) :
    (packLoop s idx cs).getD j 0 = s.getD j 0 := by
  induction cs generalizing s idx with
  | nil => rfl
  | cons c rest ih =>
      simp only [List.length_cons] at h
      rw [packLoop, ih (packStep s idx c) (idx + 1) (by omega)]
      have hne : idx / COILS_PER_BYTE ≠ j := by
        unfold COILS_PER_BYTE
        omega
      cases c <;> simp only [packStep] <;>
        simp [List.getD_eq_getElem?_getD, List.getElem?_set_ne hne]

theorem le_eight_bytes_needed (n : Nat) : n ≤ 8 * bytes_needed n := by
  unfold bytes_needed COILS_PER_BYTE
  omega

theorem zeroed_getD_of_lt (bytes : List Nat) (k j : Nat) (h : j < k) :
    (List.replicate k 0 ++ bytes.drop k).getD j 0 = 0 := by
  rw [List.getD_eq_getElem?_getD, List.getElem?_append_left (by simpa using h)]
  simp [List.getElem?_replicate_of_lt h]

theorem zeroed_getD_of_ge (bytes : List Nat) (k j : Nat) (h : k ≤ j) :
    (List.replicate k 0 ++ bytes.drop k).getD j 0 = bytes.getD j 0 := by
  rw [List.getD_eq_getElem?_getD, List.getElem?_append_right (by simpa using h),
    List.length_replicate, getElem?_drop_add, show k + (j - k) = j by omega,
    ← List.getD_eq_getElem?_getD]

/-- Bit-level characterization of `pack_coils`: inside the coil range each
bit is the corresponding coil; outside it, the zeroed working prefix (or the
untouched original tail) shows through. -/
theorem pack_coils_testBit (coils : List Coil) (bytes : List Nat) (j b : Nat) (hb : b < 8) :
    Nat.testBit ((pack_coils coils bytes).getD j 0) b =
      if 8 * j + b < coils.length then (coils.getD (8 * j + b) Coil.Off == Coil.On)
      else Nat.testBit ((List.replicate (bytes_needed coils.length) 0 ++
          bytes.drop (bytes_needed coils.length)).getD j 0) b := by
  simp only [pack_coils]
  rw [packLoop_testBit coils _ 0 j b hb (by
    simp only [List.length_append, List.length_replicate, List.length_drop]
    have := le_eight_bytes_needed coils.length
    omega)]
  simp only [Nat.zero_add, Nat.sub_zero, Nat.zero_le, true_and]

/-- Claim C9.  Packing N coils into a buffer sized `bytes_needed(N)` and
unpacking N coils back yields exactly the original sequence, for every N and
every pattern; and `bytes_needed` is exactly the ceiling of N / 8 (the least
k with N ≤ 8k). -/
theorem C9_roundtrip (coils : List Coil) (bytes : List Nat)
    (_hlen : bytes.length = bytes_needed coils.length) :
    unpack_coils (pack_coils coils bytes) coils.length = coils ∧
    (coils.length ≤ 8 * bytes_needed coils.length ∧
      ∀ k, coils.length ≤ 8 * k → bytes_needed coils.length ≤ k) := by
  refine ⟨?_, le_eight_bytes_needed coils.length, fun k hk => by
    unfold bytes_needed COILS_PER_BYTE
    omega⟩
  apply List.ext_getElem
  · simp [unpack_coils]
  · intro i h1 h2
    simp only [unpack_coils, COILS_PER_BYTE, List.getElem_map, List.getElem_range]
    have hlt : i < coils.length := h2
    have hb : i % 8 < 8 := Nat.mod_lt _ (by norm_num)
    have hbit := pack_coils_testBit coils bytes (i / 8) (i % 8) hb
    rw [show 8 * (i / 8) + i % 8 = i from by omega, if_pos hlt] at hbit
    have hgd : coils.getD i Coil.Off = coils[i] := by
      simp [List.getD_eq_getElem?_getD, List.getElem?_eq_getElem hlt]
    rw [hgd] at hbit
    rw [Nat.one_shiftLeft]
    by_cases hz : (pack_coils coils bytes).getD (i / 8) 0 &&& 2 ^ (i % 8) = 0
    · rw [if_pos hz]
      rw [(and_two_pow_eq_zero_iff _ _).mp hz] at hbit
      cases hc : coils[i] with
      | On =>
          rw [hc] at hbit
          simp at hbit
      | Off => rfl
    · rw [if_neg hz]
      have htrue : Nat.testBit ((pack_coils coils bytes).getD (i / 8) 0) (i % 8) = true := by
        cases hB : Nat.testBit ((pack_coils coils bytes).getD (i / 8) 0) (i % 8) with
        | false => exact absurd ((and_two_pow_eq_zero_iff _ _).mpr hB) hz
        | true => rfl
      rw [htrue] at hbit
      cases hc : coils[i] with
      | On => rfl
      | Off =>
          rw [hc] at hbit
          simp at hbit

/-- Claim C9, witness: an 11-coil pattern through a 2-byte buffer. -/
theorem C9_witness :
    unpack_coils (pack_coils
        [Coil.On, Coil.Off, Coil.On, Coil.Off, Coil.Off, Coil.On, Coil.Off, Coil.On,
         Coil.On, Coil.Off, Coil.On] [170, 170]) 11 =
      [Coil.On, Coil.Off, Coil.On, Coil.Off, Coil.Off, Coil.On, Coil.Off, Coil.On,
       Coil.On, Coil.Off, Coil.On] :=
  (C9_roundtrip
    [Coil.On, Coil.Off, Coil.On, Coil.Off, Coil.Off, Coil.On, Coil.Off, Coil.On,
     Coil.On, Coil.Off, Coil.On] [170, 170] (by decide)).1

/-- Claim C10.  `pack_coils`: coil `i` lands in bit `i % 8` (LSB-first) of
byte `i / 8`; every byte at index at least `bytes_needed(n)` keeps its
previous value; and in the used range every bit position past the packed
coils is cleared (never left at a stale value), since packing starts from a
zeroed working prefix. -/
theorem C10_pack_layout (coils : List Coil) (bytes : List Nat) :
    (∀ i, i < coils.length →
      Nat.testBit ((pack_coils coils bytes).getD (i / 8) 0) (i % 8) =
        (coils.getD i Coil.Off == Coil.On)) ∧
    (∀ j, bytes_needed coils.length ≤ j →
      (pack_coils coils bytes).getD j 0 = bytes.getD j 0) ∧
    (∀ j b, b < 8 → j < bytes_needed coils.length → coils.length ≤ 8 * j + b →
      Nat.testBit ((pack_coils coils bytes).getD j 0) b = false) := by
  refine ⟨?_, ?_, ?_⟩
  · intro i hi
    have hbit := pack_coils_testBit coils bytes (i / 8) (i % 8) (Nat.mod_lt _ (by norm_num))
    rw [show 8 * (i / 8) + i % 8 = i from by omega, if_pos hi] at hbit
    exact hbit
  · intro j hj
    simp only [pack_coils]
    rw [packLoop_getD_high coils _ 0 j
      (by have := le_eight_bytes_needed coils.length; omega)]
    exact zeroed_getD_of_ge bytes _ j hj
  · intro j b hb hjk hge
    have hbit := pack_coils_testBit coils bytes j b hb
    rw [if_neg (by omega)] at hbit
    rw [hbit, zeroed_getD_of_lt bytes _ j hjk]
    simp

/-- Claim C10, witness: coil 3 of a 4-coil pack into a previously all-ones
byte. -/
theorem C10_witness :
    Nat.testBit ((pack_coils [Coil.On, Coil.Off, Coil.On, Coil.On] [255]).getD 0 0) 3 =
      ([Coil.On, Coil.Off, Coil.On, Coil.On].getD 3 Coil.Off == Coil.On) :=
  (C10_pack_layout [Coil.On, Coil.Off, Coil.On, Coil.On] [255]).1 3 (by decide)
